import Mathlib

/-!
Verification of the training algorithms in `algorithms.py` of L2O-HEM-Torch.

The Python classes `ReinforceBaselineAlg` and `HRLReinforceAlg` are shallowly
embedded: pure numeric scalars are modelled as rationals where only field
arithmetic occurs, and as reals where a square root (`np.std`) occurs;
autograd tensors are modelled as forward-mode dual numbers carrying a value
and one partial derivative per parameter group (policy, critic); the replay
buffer and the trainer state are explicit structures.
-/

namespace L2OHEM

/-! ## List statistics (numpy mean over rationals) -/

/-- Mean of a list of rationals, `np.mean`; the empty list gives `0/0 = 0`. -/
def listMeanQ (l : List ℚ) : ℚ := l.sum / l.length

/-! ## Mini-batch partition, `ReinforceBaselineAlg.train` lines 226-232 -/

/-- Number of mini-batch loops computed at the top of `train`
(`algorithms.py` lines 226-232): one loop when fewer samples than
`batch_size`, otherwise `total / batch_size`, rounded up when the division
is not exact. -/
def trainLoop (total_num_samples batch_size : ℕ) : ℕ :=
  if total_num_samples < batch_size then 1
  else if total_num_samples % batch_size = 0 then total_num_samples / batch_size
  else total_num_samples / batch_size + 1

/-- Size of mini-batch `i` (lines 240-244): the last loop takes everything
from index `i*batch_size` on (`len(states[i*self.batch_size:])`), the other
loops take `batch_size` samples. -/
def minibatchSize (total_num_samples batch_size i loops : ℕ) : ℕ :=
  if i = loops - 1 then total_num_samples - i * batch_size else batch_size

/-- Mini-batch slice of the reward vector (lines 279-282):
`neg_rewards[i*bs:]` for the last loop, `neg_rewards[i*bs:(i+1)*bs]`
otherwise. -/
def minibatchNegRewards (neg_rewards : List ℚ) (batch_size i loops : ℕ) : List ℚ :=
  if i = loops - 1 then neg_rewards.drop (i * batch_size)
  else (neg_rewards.drop (i * batch_size)).take batch_size

/-! ## Simple baseline EMA, `train` lines 234-238 -/

/-- EMA update of `self.critic_exp_mvg_avg` performed by `train` for the
`simple` baseline (lines 234-238). -/
def criticEmaUpdate (critic_beta ema rewards_mean : ℚ) (epoch : ℕ) : ℚ :=
  if epoch = 1 then rewards_mean
  else ema * critic_beta + (1 - critic_beta) * rewards_mean

/-- Result of one `train` call under the `simple` baseline: the updated EMA
and, per mini-batch loop, the `neg_advantage` vector of line 285. -/
structure SimpleTrainResult where
  critic_exp_mvg_avg : ℚ
  neg_advantages : List (List ℚ)
deriving DecidableEq, Repr

/-- One call of `ReinforceBaselineAlg.train` with `baseline_type = 'simple'`,
restricted to the reward/EMA/advantage computation (lines 226-244, 279-285):
the EMA is updated once from the batch mean, then every mini-batch loop
forms `neg_advantage = minibatch_neg_rewards - critic_exp_mvg_avg` with the
already-updated EMA. `neg_rewards` is the reward vector returned by
`_process_data`. -/
def trainSimple (critic_beta ema : ℚ) (neg_rewards : List ℚ) (epoch batch_size : ℕ) :
    SimpleTrainResult :=
  let loops := trainLoop neg_rewards.length batch_size
  let ema2 := criticEmaUpdate critic_beta ema (listMeanQ neg_rewards) epoch
  { critic_exp_mvg_avg := ema2,
    neg_advantages := (List.range loops).map
      (fun i => (minibatchNegRewards neg_rewards batch_size i loops).map (fun r => r - ema2)) }

/-! ## Autograd scalars as forward-mode dual numbers

A scalar tensor in the computation graph carries a value and its partial
derivatives with respect to one representative pointer-net (policy)
parameter and one representative value-net (critic) parameter.
`detach` keeps the value and severs the graph (both partials become 0),
exactly the semantics of `tensor.detach()`. -/

structure Dual where
  val : ℚ
  dpol : ℚ
  dcrit : ℚ
deriving DecidableEq, Repr

/-- A constant scalar (no gradient), e.g. a reward entry. -/
def Dual.const (r : ℚ) : Dual := ⟨r, 0, 0⟩

def Dual.add (a b : Dual) : Dual := ⟨a.val + b.val, a.dpol + b.dpol, a.dcrit + b.dcrit⟩

def Dual.sub (a b : Dual) : Dual := ⟨a.val - b.val, a.dpol - b.dpol, a.dcrit - b.dcrit⟩

/-- Product rule. -/
def Dual.mul (a b : Dual) : Dual :=
  ⟨a.val * b.val, a.val * b.dpol + a.dpol * b.val, a.val * b.dcrit + a.dcrit * b.val⟩

def Dual.smul (q : ℚ) (a : Dual) : Dual := ⟨q * a.val, q * a.dpol, q * a.dcrit⟩

/-- Semantics of `tensor.detach()`: same value, no gradient flow. -/
def Dual.detach (a : Dual) : Dual := ⟨a.val, 0, 0⟩

def dualSum (l : List Dual) : Dual := l.foldr Dual.add (Dual.const 0)

/-- Semantics of `tensor.mean()` over a vector of scalars. -/
def dualMean (l : List Dual) : Dual := Dual.smul (1 / (l.length : ℚ)) (dualSum l)

/-! ## Log-probability clamp, `train` lines 264-268 -/

/-- Per-sample handling of the summed log-probability in `train`
(lines 264-268): a log-probability below `-4000` is stored detached into
the `logprobs` tensor and a warning is logged (second component `true`),
otherwise it is stored as is. -/
def storeLogprob (logprob : Dual) : Dual × Bool :=
  if logprob.val < -4000 then (logprob.detach, true) else (logprob, false)

/-! ## Net baseline, `train` lines 269-270, 288-289, 299-305 -/

/-- Advantage for the `net` baseline (line 289):
`neg_advantage = minibatch_neg_rewards - neg_baseline_value.detach()`. -/
def negAdvantageNet (minibatch_neg_rewards : List ℚ) (neg_baseline_value : List Dual) :
    List Dual :=
  (minibatch_neg_rewards.zip neg_baseline_value).map
    (fun p => Dual.sub (Dual.const p.1) (Dual.detach p.2))

/-- Policy loss (line 291): `reinforce_loss = (neg_advantage * logprobs).mean()`. -/
def reinforceLoss (neg_advantage logprobs : List Dual) : Dual :=
  dualMean ((neg_advantage.zip logprobs).map (fun p => Dual.mul p.1 p.2))

/-- Critic loss (line 300):
`critic_loss = MSELoss(neg_baseline_value, minibatch_neg_rewards)`. -/
def criticLoss (neg_baseline_value : List Dual) (minibatch_neg_rewards : List ℚ) : Dual :=
  dualMean ((neg_baseline_value.zip minibatch_neg_rewards).map
    (fun p => Dual.mul (Dual.sub p.1 (Dual.const p.2)) (Dual.sub p.1 (Dual.const p.2))))

/-! ## Hierarchical trainer, `HRLReinforceAlg` lines 370-557

Only the fields that the high-level training path reads or writes are
modelled; the element type of a high-level state is its feature matrix. -/

/-- High-level dataset of one episode (`result[2]`), and the shape of the
replay buffer `self.training_highlevel_dataset`. -/
structure HighlevelDataset where
  state : List (List ℚ)
  action : List ℤ
  neg_reward : List ℚ
deriving DecidableEq, Repr

/-- The cleared buffer `{states: [], actions: [], neg_rewards: []}`. -/
def emptyHighlevelDataset : HighlevelDataset := ⟨[], [], []⟩

/-- `_update_highlevel_dataset` (lines 432-443): the buffer is first reset
to empty lists and then extended with each episode's high-level data, so
it ends up holding exactly the current call's data. -/
def updateHighlevelDataset (raw_results : List HighlevelDataset) : HighlevelDataset :=
  raw_results.foldl
    (fun acc d => ⟨acc.state ++ d.state, acc.action ++ d.action,
      acc.neg_reward ++ d.neg_reward⟩)
    emptyHighlevelDataset

/-- State of `HRLReinforceAlg` relevant to the high-level training path. -/
structure HRLState where
  train_highlevel_policy_freq : ℕ
  train_highlevel_batch_size : ℕ
  train_highlevel_epoch : ℕ
  training_highlevel_dataset : HighlevelDataset
  critic_exp_mvg_avg_high_level : ℚ
  critic_beta : ℚ
  reward_scale : ℚ
  normalize_reward : Bool
deriving DecidableEq, Repr

/-- Rewards entering the high-level loss and EMA, `_train_highlevel` lines
462-463: `np.vstack(neg_rewards) * self.reward_scale` and nothing else —
in particular no branch on `self.normalize_reward` exists in
`_train_highlevel`. -/
def trainHighlevelNegRewards (s : HRLState) : List ℚ :=
  s.training_highlevel_dataset.neg_reward.map (fun r => r * s.reward_scale)

/-- High-level EMA update, `_train_highlevel` lines 484-487. -/
def trainHighlevelEmaUpdate (s : HRLState) : ℚ :=
  if s.train_highlevel_epoch = 1 then listMeanQ (trainHighlevelNegRewards s)
  else s.critic_exp_mvg_avg_high_level * s.critic_beta
    + (1 - s.critic_beta) * listMeanQ (trainHighlevelNegRewards s)

/-- The state change performed by `_train_highlevel` (lines 458-534)
restricted to the modelled fields: the high-level EMA is updated from the
scaled buffered rewards; the gradient loop mutates only network and
optimizer state, which is outside the model. -/
def trainHighlevel (s : HRLState) : HRLState :=
  { s with critic_exp_mvg_avg_high_level := trainHighlevelEmaUpdate s }

/-- `train_highlevel_policy` (lines 418-430): when `epoch` is a multiple
of `train_highlevel_policy_freq`, the buffer is replaced with this call's
data, one `_train_highlevel` update runs, the high-level epoch counter is
incremented, and the buffer is cleared; otherwise nothing happens and the
returned statistics are the empty dict (second component `false`). -/
def train_highlevel_policy (s : HRLState) (raw_results : List HighlevelDataset)
    (epoch : ℕ) : HRLState × Bool :=
  if epoch % s.train_highlevel_policy_freq = 0 then
    let s1 := { s with training_highlevel_dataset := updateHighlevelDataset raw_results }
    let s2 := trainHighlevel s1
    ({ s2 with train_highlevel_epoch := s2.train_highlevel_epoch + 1,
               training_highlevel_dataset := emptyHighlevelDataset }, true)
  else (s, false)

/-- Concrete trainer state for the C4 counterexample: frequency 5, fresh
(empty) buffer. -/
def c4State : HRLState :=
  { train_highlevel_policy_freq := 5
    train_highlevel_batch_size := 32
    train_highlevel_epoch := 1
    training_highlevel_dataset := emptyHighlevelDataset
    critic_exp_mvg_avg_high_level := 0
    critic_beta := 9/10
    reward_scale := 1
    normalize_reward := true }

/-- Concrete nonempty high-level data for the C4 counterexample. -/
def c4Raw : HighlevelDataset := ⟨[[1, 2]], [3], [4]⟩

/-! ## Constructor validation, `ReinforceBaselineAlg.__init__` lines 73-94 -/

/-- Optimizer classes exposed by the external `torch.optim` module, which
`__init__` resolves a string name against; a name outside this set makes
the attribute lookup in `optim.<name>` raise at construction time. -/
def torchOptimAttrs : List String :=
  ["Adadelta", "Adagrad", "Adam", "AdamW", "Adamax", "ASGD", "LBFGS",
   "NAdam", "RAdam", "RMSprop", "Rprop", "SGD", "SparseAdam"]

/-- Observable outcome of `__init__` for the configuration fields the
claims are about. Note lines 84-93: `baseline_type` is only branched on
for the two recognized non-default values; any other string is stored
without validation. -/
structure ReinforceInitResult where
  baseline_type : String
  has_value_optimizer : Bool
  has_simple_ema : Bool
deriving DecidableEq, Repr

/-- `__init__` (lines 73-94): resolving the optimizer name fails fast when
it is not an attribute of `torch.optim`; the baseline type is accepted
unchecked. -/
def reinforceBaselineInit (optimizer_class baseline_type : String) :
    Except String ReinforceInitResult :=
  if optimizer_class ∈ torchOptimAttrs then
    Except.ok
      { baseline_type := baseline_type
        has_value_optimizer := baseline_type = "net"
        has_simple_ema := baseline_type = "simple" }
  else
    Except.error ("AttributeError: module torch.optim has no attribute " ++ optimizer_class)

/-- Advantage branch selection in `train` (lines 284-289): an `if/elif`
chain over the three recognized baseline types; any other value leaves the
local variable `neg_advantage` unbound, so line 291 raises mid-training
(`none`). -/
def selectNegAdvantage (baseline_type : String) (minibatch_neg_rewards : List ℚ)
    (critic_exp_mvg_avg : ℚ) (neg_baseline_value : List ℚ) : Option (List ℚ) :=
  if baseline_type = "simple" then
    some (minibatch_neg_rewards.map (fun r => r - critic_exp_mvg_avg))
  else if baseline_type = "no_baseline" then
    some minibatch_neg_rewards
  else if baseline_type = "net" then
    some ((minibatch_neg_rewards.zip neg_baseline_value).map (fun p => p.1 - p.2))
  else
    none

/-! ## Order of effects in one `train` call, lines 240-313 -/

/-- Externally visible effects of one `train` call, in program order:
optimizer steps inside the mini-batch loop (lines 297 and 305), the
learning-rate scheduler step (line 310), and the checkpoint write
(line 313). -/
inductive TrainEvent where
  | optStep (i : ℕ)
  | valueOptStep (i : ℕ)
  | lrStep
  | saveCkpt (epoch : ℕ)
deriving DecidableEq, Repr

/-- Effects of mini-batch loop `i` (lines 240-305): a policy optimizer
step, plus a value optimizer step for the `net` baseline. -/
def trainLoopEvents (baseline_type : String) (i : ℕ) : List TrainEvent :=
  TrainEvent.optStep i ::
    (if baseline_type = "net" then [TrainEvent.valueOptStep i] else [])

/-- Every effect of `train` before the checkpoint write: the whole
mini-batch loop, then the optional scheduler step (lines 308-311). -/
def trainBodyEvents (baseline_type : String) (lr_decay : Bool)
    (total_num_samples batch_size : ℕ) : List TrainEvent :=
  ((List.range (trainLoop total_num_samples batch_size)).map
      (trainLoopEvents baseline_type)).flatten
    ++ (if lr_decay then [TrainEvent.lrStep] else [])

/-- The full effect trace of one `train` call (lines 240-313): loop
effects, scheduler, and as the final effect the single
`save_checkpoint(epoch)` of line 313. -/
def trainTrace (baseline_type : String) (lr_decay : Bool)
    (total_num_samples batch_size epoch : ℕ) : List TrainEvent :=
  trainBodyEvents baseline_type lr_decay total_num_samples batch_size
    ++ [TrainEvent.saveCkpt epoch]

/-- Keys of the state dict written by
`ReinforceBaselineAlg.save_checkpoint` (lines 144-152): always the
pointer-net weights, plus the normalizer mean/std/epsilon when feature
normalization is enabled. -/
def saveCheckpointKeys (normalize : Bool) : List String :=
  "pointer_net" :: (if normalize then ["mean", "std", "epsilon"] else [])

/-- Recognizer for checkpoint-write events. -/
def isSaveCkpt : TrainEvent → Bool
  | TrainEvent.saveCkpt _ => true
  | _ => false

/-! ## Reward processing, `_process_data` lines 185-192

`np.std` takes a square root, so this part of the pipeline is modelled
over the reals. -/

/-- Mean of a list of reals, `np.mean`; the empty list gives `0/0 = 0`. -/
noncomputable def listMean (l : List ℝ) : ℝ := l.sum / l.length

/-- Population variance, as `np.std` squares it (`ddof = 0`). -/
noncomputable def listVariance (l : List ℝ) : ℝ :=
  listMean (l.map (fun x => (x - listMean l) ^ 2))

/-- Standard deviation, `np.std`. -/
noncomputable def listStd (l : List ℝ) : ℝ := Real.sqrt (listVariance l)

/-- Reward processing of `_process_data` (lines 185-192): scale the
stacked rewards by `reward_scale` unconditionally; when
`normalize_reward` is set, record the scaled (still un-normalized)
distribution for logging (second component, in order of emission) and
replace the rewards by `(reward - mean) / (std + 1e-3)`. -/
noncomputable def processNegRewards (reward_scale : ℝ) (normalize_reward : Bool)
    (neg_rewards : List ℝ) : List ℝ × List (List ℝ) :=
  let scaled := neg_rewards.map (fun r => reward_scale * r)
  if normalize_reward then
    (scaled.map (fun r => (r - listMean scaled) / (listStd scaled + 1 / 1000)),
     [scaled])
  else
    (scaled, [])

/-! ## Trajectory aggregation, `_process_data` lines 170-212 -/

/-- Low-level training data of one episode (`result[1]`): a state is a
feature matrix (rows of cut features), an action an index list. -/
structure TrainingDataset where
  state : List (List (List ℚ))
  action : List (List ℕ)
  sel_cuts_num : List ℕ
  neg_reward : List ℝ

/-- Snapshot of the running normalizer used by `_normalize_state` (lines
163-168); the streaming update itself lives in `utilss.mean_std`, outside
this repository's source file. -/
structure RunningMeanStdParams where
  mean : List ℚ
  std : List ℚ
  epsilon : ℚ

/-- `_normalize_state` (lines 163-168): featurewise
`(state - mean) / (std + epsilon)`, broadcast over the rows of the
feature matrix. -/
def normalizeState (ms : RunningMeanStdParams) (st : List (List ℚ)) :
    List (List ℚ) :=
  st.map (fun row =>
    ((row.zip (ms.mean.zip ms.std)).map
      (fun p => (p.1 - p.2.1) / (p.2.2 + ms.epsilon))))

/-- The tuple `_process_data` returns (lines 210 and 212); rewards as the
column vector `np.vstack` produced (each row a singleton). -/
structure ProcessedData where
  neg_rewards : List (List ℝ)
  states : List (List (List ℚ))
  actions : List (List ℕ)
  sel_cuts_nums : List ℕ

/-- `_process_data` (lines 170-212) restricted to its data flow: the four
per-episode lists are concatenated across episodes in order; the stacked
rewards go through scaling and optional normalization
(`processNegRewards`); the states are optionally normalized featurewise
(the episode-info merge and the logging calls carry no data into the
returned tuple and are omitted). -/
noncomputable def processData (normalize : Bool) (ms : RunningMeanStdParams)
    (reward_scale : ℝ) (normalize_reward : Bool)
    (training_datasets : List TrainingDataset) : ProcessedData :=
  let states := training_datasets.foldl (fun acc d => acc ++ d.state) []
  let actions := training_datasets.foldl (fun acc d => acc ++ d.action) []
  let sel_cuts_nums := training_datasets.foldl (fun acc d => acc ++ d.sel_cuts_num) []
  let neg_rewards := training_datasets.foldl (fun acc d => acc ++ d.neg_reward) []
  { neg_rewards :=
      (processNegRewards reward_scale normalize_reward neg_rewards).1.map (fun r => [r]),
    states := if normalize then states.map (normalizeState ms) else states,
    actions := actions,
    sel_cuts_nums := sel_cuts_nums }

/-- Concrete two-episode batch for the C7 witness; in the first episode
the action lists hold 3 indices in total while the selection counts sum
to 5, exhibiting that no relation between the two is required. -/
def c7Data : TrainingDataset :=
  { state := [[[1]], [[2]]]
    action := [[0, 1], [0]]
    sel_cuts_num := [2, 3]
    neg_reward := [1, 2] }

/-! ## Lemmas and claim theorems -/
/-! ## Lemmas about the mini-batch partition -/

lemma trainLoop_eq_ceil (N bs : ℕ) (hb : 0 < bs) :
    trainLoop N bs = if N < bs then 1 else (N + bs - 1) / bs := by
  unfold trainLoop
  by_cases hlt : N < bs
  · simp [hlt]
  · simp only [hlt, if_false]
    have hd := Nat.div_add_mod N bs
    have hm := Nat.mod_lt N hb
    by_cases h : N % bs = 0
    · simp only [h, if_true]
      have h1 : N + bs - 1 = bs * (N / bs) + (bs - 1) := by omega
      rw [h1, Nat.mul_add_div hb, Nat.div_eq_of_lt (by omega : bs - 1 < bs)]
      omega
    · simp only [h, if_false]
      have h2 : bs * (N / bs + 1) = bs * (N / bs) + bs := by ring
      have h1 : N + bs - 1 = bs * (N / bs + 1) + (N % bs - 1) := by omega
      rw [h1, Nat.mul_add_div hb, Nat.div_eq_of_lt (by omega : N % bs - 1 < bs)]

lemma one_le_trainLoop (N bs : ℕ) (hb : 0 < bs) : 1 ≤ trainLoop N bs := by
  unfold trainLoop
  by_cases hlt : N < bs
  · simp [hlt]
  · have hq : 1 ≤ N / bs := (Nat.one_le_div_iff hb).mpr (le_of_not_lt hlt)
    by_cases h : N % bs = 0 <;> simp only [hlt, h, if_true, if_false] <;> omega

lemma mul_pred_trainLoop_le (N bs : ℕ) (hb : 0 < bs) :
    bs * (trainLoop N bs - 1) ≤ N := by
  unfold trainLoop
  have hd := Nat.div_add_mod N bs
  have hm := Nat.mod_lt N hb
  by_cases hlt : N < bs
  · simp [hlt]
  · simp only [hlt, if_false]
    by_cases h : N % bs = 0
    · simp only [h, if_true]
      have hq : 1 ≤ N / bs := (Nat.one_le_div_iff hb).mpr (le_of_not_lt hlt)
      have h2 : bs * (N / bs - 1 + 1) = bs * (N / bs - 1) + bs := by ring
      have h3 : N / bs - 1 + 1 = N / bs := by omega
      rw [h3] at h2
      omega
    · simp only [h, if_false, Nat.add_sub_cancel]
      omega

lemma sum_minibatchSize (N bs : ℕ) (hb : 0 < bs) :
    (∑ i ∈ Finset.range (trainLoop N bs),
      minibatchSize N bs i (trainLoop N bs)) = N := by
  have hL := one_le_trainLoop N bs hb
  have hle := mul_pred_trainLoop_le N bs hb
  set L := trainLoop N bs with hLdef
  have hsplit : L = (L - 1) + 1 := by omega
  rw [hsplit, Finset.sum_range_succ]
  have hfirst : (∑ i ∈ Finset.range (L - 1), minibatchSize N bs i ((L - 1) + 1))
      = (L - 1) * bs := by
    rw [Finset.sum_congr rfl (fun i hi => ?_), Finset.sum_const, Finset.card_range,
      smul_eq_mul]
    have hi' : i < L - 1 := Finset.mem_range.mp hi
    simp only [minibatchSize, Nat.add_sub_cancel]
    rw [if_neg (by omega)]
  rw [hfirst]
  simp only [minibatchSize, Nat.add_sub_cancel, eq_self_iff_true, if_true]
  have hcomm : bs * (L - 1) = (L - 1) * bs := Nat.mul_comm _ _
  omega

/-- C3: `train` partitions the aggregated samples into
`ceil(N / batch_size)` mini-batch loops (one loop when `N < batch_size`),
every loop but the last of size `batch_size` and the last of size
`N - batch_size * (loops - 1)`; the loop sizes sum to `N`; concretely,
`N = 100, batch_size = 32` gives 4 loops of sizes `[32, 32, 32, 4]`,
`N = 32` gives one loop of size 32 and `N = 10` one loop of size 10. -/
theorem train_minibatch_partition (N bs : ℕ) (hb : 0 < bs) :
    trainLoop N bs = (if N < bs then 1 else (N + bs - 1) / bs)
    ∧ (∀ i, i < trainLoop N bs - 1 → minibatchSize N bs i (trainLoop N bs) = bs)
    ∧ minibatchSize N bs (trainLoop N bs - 1) (trainLoop N bs)
        = N - bs * (trainLoop N bs - 1)
    ∧ (∑ i ∈ Finset.range (trainLoop N bs),
        minibatchSize N bs i (trainLoop N bs)) = N
    ∧ trainLoop 100 32 = 4
    ∧ (List.range 4).map (fun i => minibatchSize 100 32 i 4) = [32, 32, 32, 4]
    ∧ trainLoop 32 32 = 1 ∧ minibatchSize 32 32 0 1 = 32
    ∧ trainLoop 10 32 = 1 ∧ minibatchSize 10 32 0 1 = 10 := by
  refine ⟨trainLoop_eq_ceil N bs hb, fun i hi => ?_, ?_, sum_minibatchSize N bs hb,
    by decide, by decide, by decide, by decide, by decide, by decide⟩
  · simp only [minibatchSize]
    rw [if_neg (by omega)]
  · simp only [minibatchSize, eq_self_iff_true, if_true, Nat.mul_comm]

/-- Witness for C3 at `N = 100`, `batch_size = 32`. -/
theorem train_minibatch_partition_witness :
    (0 : ℕ) < 32 ∧ trainLoop 100 32 = 4 :=
  ⟨by decide, (train_minibatch_partition 100 32 (by decide)).2.2.2.2.1⟩

/-- C1: for the `simple` baseline, `train` updates the scalar EMA exactly
once per call, before the mini-batch loop: the new EMA is the batch mean
when `epoch = 1` and `ema * beta + (1 - beta) * mean` otherwise, and every
mini-batch advantage is formed against the already-updated EMA; with
rewards `[1, 2, 3]` at epoch 1 the EMA becomes exactly `2`, and at epoch 2
with rewards `[4, 5, 6]` and `beta = 9/10` it becomes `23/10`. -/
theorem simple_baseline_ema_update (beta ema : ℚ) (neg_rewards : List ℚ)
    (epoch batch_size : ℕ) :
    (trainSimple beta ema neg_rewards epoch batch_size).critic_exp_mvg_avg
      = (if epoch = 1 then listMeanQ neg_rewards
         else ema * beta + (1 - beta) * listMeanQ neg_rewards)
    ∧ (trainSimple beta ema neg_rewards epoch batch_size).neg_advantages
      = (List.range (trainLoop neg_rewards.length batch_size)).map
          (fun i => (minibatchNegRewards neg_rewards batch_size i
              (trainLoop neg_rewards.length batch_size)).map
            (fun r => r -
              (trainSimple beta ema neg_rewards epoch batch_size).critic_exp_mvg_avg))
    ∧ (trainSimple (9/10) 0 [1, 2, 3] 1 32).critic_exp_mvg_avg = 2
    ∧ (trainSimple (9/10) 2 [4, 5, 6] 2 32).critic_exp_mvg_avg = 23/10 :=
  ⟨rfl, rfl, by norm_num [trainSimple, criticEmaUpdate, listMeanQ],
    by norm_num [trainSimple, criticEmaUpdate, listMeanQ]⟩

/-- C2: a sample whose summed log-probability is below `-4000` is stored
detached — its value still enters the `logprobs` tensor (hence every
aggregate statistic computed from it) but its term contributes zero
gradient to the policy parameters — and the warning is logged; a sample at
or above `-4000` is stored unchanged, no warning, and its term contributes
its gradient `advantage * dpol` normally. -/
theorem logprob_clamp (lp : Dual) :
    (storeLogprob lp).1.val = lp.val
    ∧ (lp.val < -4000 →
        (storeLogprob lp).1 = ⟨lp.val, 0, 0⟩
        ∧ (storeLogprob lp).2 = true
        ∧ ∀ adv : ℚ, ((Dual.const adv).mul (storeLogprob lp).1).dpol = 0)
    ∧ (-4000 ≤ lp.val →
        (storeLogprob lp).1 = lp
        ∧ (storeLogprob lp).2 = false
        ∧ ∀ adv : ℚ, ((Dual.const adv).mul (storeLogprob lp).1).dpol = adv * lp.dpol) := by
  refine ⟨?_, fun h => ?_, fun h => ?_⟩
  · unfold storeLogprob
    split <;> rfl
  · refine ⟨by simp [storeLogprob, if_pos h, Dual.detach],
      by simp [storeLogprob, if_pos h], fun adv => ?_⟩
    simp [storeLogprob, if_pos h, Dual.detach, Dual.const, Dual.mul]
  · refine ⟨by simp [storeLogprob, if_neg (not_lt.mpr h)],
      by simp [storeLogprob, if_neg (not_lt.mpr h)], fun adv => ?_⟩
    simp [storeLogprob, if_neg (not_lt.mpr h), Dual.const, Dual.mul]

/-- Witness for C2 at log-probabilities `-5000` (detached, zero policy
gradient, warning) and `-3000` (kept, ordinary policy gradient). -/
theorem logprob_clamp_witness :
    (storeLogprob ⟨-5000, 7, 0⟩).2 = true
    ∧ ((Dual.const 5).mul (storeLogprob ⟨-5000, 7, 0⟩).1).dpol = 0
    ∧ (storeLogprob ⟨-5000, 7, 0⟩).1.val = -5000
    ∧ (storeLogprob ⟨-3000, 7, 0⟩).2 = false
    ∧ ((Dual.const 5).mul (storeLogprob ⟨-3000, 7, 0⟩).1).dpol = 5 * 7 :=
  ⟨((logprob_clamp ⟨-5000, 7, 0⟩).2.1 (by norm_num)).2.1,
    ((logprob_clamp ⟨-5000, 7, 0⟩).2.1 (by norm_num)).2.2 5,
    (logprob_clamp ⟨-5000, 7, 0⟩).1,
    ((logprob_clamp ⟨-3000, 7, 0⟩).2.2 (by norm_num)).2.1,
    ((logprob_clamp ⟨-3000, 7, 0⟩).2.2 (by norm_num)).2.2 5⟩

/-! ## Componentwise lemmas for dual sums and means -/

lemma dualSum_val (l : List Dual) : (dualSum l).val = (l.map Dual.val).sum := by
  induction l with
  | nil => rfl
  | cons x xs ih => simp [dualSum, Dual.add, Dual.const] at ih ⊢; rw [ih]

lemma dualSum_dpol (l : List Dual) : (dualSum l).dpol = (l.map Dual.dpol).sum := by
  induction l with
  | nil => rfl
  | cons x xs ih => simp [dualSum, Dual.add, Dual.const] at ih ⊢; rw [ih]

lemma dualSum_dcrit (l : List Dual) : (dualSum l).dcrit = (l.map Dual.dcrit).sum := by
  induction l with
  | nil => rfl
  | cons x xs ih => simp [dualSum, Dual.add, Dual.const] at ih ⊢; rw [ih]

lemma dualMean_val (l : List Dual) : (dualMean l).val = listMeanQ (l.map Dual.val) := by
  simp only [dualMean, Dual.smul, dualSum_val, listMeanQ, List.length_map]
  rw [one_div, inv_mul_eq_div]

lemma dualMean_dpol (l : List Dual) : (dualMean l).dpol = listMeanQ (l.map Dual.dpol) := by
  simp only [dualMean, Dual.smul, dualSum_dpol, listMeanQ, List.length_map]
  rw [one_div, inv_mul_eq_div]

lemma dualMean_dcrit (l : List Dual) : (dualMean l).dcrit = listMeanQ (l.map Dual.dcrit) := by
  simp only [dualMean, Dual.smul, dualSum_dcrit, listMeanQ, List.length_map]
  rw [one_div, inv_mul_eq_div]

/-- C6: for the `net` baseline, the mini-batch advantage is reward minus
the value estimate taken as a constant (all gradient components severed by
`detach`), so the policy loss carries zero gradient into the critic
parameters; the critic is trained in the same step by the mean-squared
error of its (non-detached) estimates against the mini-batch rewards, a
loss that carries zero gradient into the policy parameters and whose
critic gradient is the usual `2 * (value - reward) * dvalue` mean; every
mini-batch loop additionally runs its own value-optimizer step after the
policy-optimizer step. -/
theorem net_baseline_detached_advantage (rs : List ℚ) (vs lps : List Dual)
    (hv : ∀ v ∈ vs, v.dpol = 0) (hl : ∀ lp ∈ lps, lp.dcrit = 0) :
    (∀ p ∈ rs.zip vs,
      Dual.sub (Dual.const p.1) (Dual.detach p.2) = Dual.const (p.1 - p.2.val))
    ∧ (∀ a ∈ negAdvantageNet rs vs, a.dpol = 0 ∧ a.dcrit = 0)
    ∧ (reinforceLoss (negAdvantageNet rs vs) lps).dcrit = 0
    ∧ (criticLoss vs rs).dpol = 0
    ∧ (criticLoss vs rs).val
        = listMeanQ ((vs.zip rs).map (fun p => (p.1.val - p.2) ^ 2))
    ∧ (criticLoss vs rs).dcrit
        = listMeanQ ((vs.zip rs).map (fun p => 2 * (p.1.val - p.2) * p.1.dcrit))
    ∧ (∀ i, trainLoopEvents "net" i = [TrainEvent.optStep i, TrainEvent.valueOptStep i]) := by
  have hadv : ∀ a ∈ negAdvantageNet rs vs, a.dpol = 0 ∧ a.dcrit = 0 := by
    intro a ha
    obtain ⟨p, _, rfl⟩ := List.mem_map.mp ha
    simp [Dual.sub, Dual.const, Dual.detach]
  refine ⟨?_, hadv, ?_, ?_, ?_, ?_, fun i => rfl⟩
  · intro p _
    simp [Dual.sub, Dual.const, Dual.detach]
  · rw [reinforceLoss, dualMean_dcrit]
    have hz : ∀ x ∈ ((negAdvantageNet rs vs).zip lps).map
        (fun p => Dual.mul p.1 p.2), x.dcrit = 0 := by
      intro x hx
      obtain ⟨p, hp, rfl⟩ := List.mem_map.mp hx
      have h1 := (hadv p.1 (List.of_mem_zip hp).1).2
      have h2 := hl p.2 (List.of_mem_zip hp).2
      simp [Dual.mul, h1, h2]
    have hsum : ((((negAdvantageNet rs vs).zip lps).map
        (fun p => Dual.mul p.1 p.2)).map Dual.dcrit).sum = 0 := by
      refine List.sum_eq_zero ?_
      intro x hx
      obtain ⟨y, hy, rfl⟩ := List.mem_map.mp hx
      exact hz y hy
    rw [listMeanQ, hsum, zero_div]
  · rw [criticLoss, dualMean_dpol]
    have hz : ∀ x ∈ (vs.zip rs).map
        (fun p => Dual.mul (Dual.sub p.1 (Dual.const p.2)) (Dual.sub p.1 (Dual.const p.2))),
        x.dpol = 0 := by
      intro x hx
      obtain ⟨p, hp, rfl⟩ := List.mem_map.mp hx
      have h1 := hv p.1 (List.of_mem_zip hp).1
      simp [Dual.mul, Dual.sub, Dual.const, h1]
    have hsum : (((vs.zip rs).map
        (fun p => Dual.mul (Dual.sub p.1 (Dual.const p.2))
          (Dual.sub p.1 (Dual.const p.2)))).map Dual.dpol).sum = 0 := by
      refine List.sum_eq_zero ?_
      intro x hx
      obtain ⟨y, hy, rfl⟩ := List.mem_map.mp hx
      exact hz y hy
    rw [listMeanQ, hsum, zero_div]
  · rw [criticLoss, dualMean_val, List.map_map]
    refine congrArg listMeanQ (List.map_congr_left ?_)
    intro p _
    simp only [Function.comp_apply, Dual.mul, Dual.sub, Dual.const]
    ring
  · rw [criticLoss, dualMean_dcrit, List.map_map]
    refine congrArg listMeanQ (List.map_congr_left ?_)
    intro p _
    simp only [Function.comp_apply, Dual.mul, Dual.sub, Dual.const]
    ring

/-- Witness for C6 at one reward `3`, one value estimate with critic
sensitivity `5`, and one log-probability with policy sensitivity `7`. -/
theorem net_baseline_detached_advantage_witness :
    (reinforceLoss (negAdvantageNet [3] [⟨1, 0, 5⟩]) [⟨-2, 7, 0⟩]).dcrit = 0
    ∧ (criticLoss [⟨1, 0, 5⟩] [3]).dpol = 0 :=
  ⟨(net_baseline_detached_advantage [3] [⟨1, 0, 5⟩] [⟨-2, 7, 0⟩]
      (by decide) (by decide)).2.2.1,
    (net_baseline_detached_advantage [3] [⟨1, 0, 5⟩] [⟨-2, 7, 0⟩]
      (by decide) (by decide)).2.2.2.1⟩

/-- C4 counterexample: with `train_highlevel_policy_freq = 5`, a call at
epoch 1 with nonempty high-level data returns empty statistics but leaves
the replay buffer empty — it does NOT hold only the latest call's data,
because `_update_highlevel_dataset` is reached only on update epochs; the
call's data is silently discarded. -/
theorem train_highlevel_policy_skip_counterexample :
    (train_highlevel_policy c4State [c4Raw] 1).2 = false
    ∧ (train_highlevel_policy c4State [c4Raw] 1).1.training_highlevel_dataset
        = emptyHighlevelDataset
    ∧ (updateHighlevelDataset [c4Raw]).neg_reward = [4]
    ∧ (train_highlevel_policy c4State [c4Raw] 1).1.training_highlevel_dataset
        ≠ updateHighlevelDataset [c4Raw] := by
  refine ⟨rfl, rfl, by decide, by decide⟩

/-- C4 as amended: at epochs that are not multiples of the frequency,
`train_highlevel_policy` returns empty statistics and leaves the trainer
state — including the replay buffer — completely unchanged (the call's
data never enters the buffer); at a multiple of the frequency it performs
exactly one update: the high-level epoch counter grows by one, the EMA is
updated from exactly this call's data, and the buffer is left cleared to
empty lists. -/
theorem train_highlevel_policy_cadence (s : HRLState)
    (raw_results : List HighlevelDataset) (epoch : ℕ) :
    (epoch % s.train_highlevel_policy_freq ≠ 0 →
      train_highlevel_policy s raw_results epoch = (s, false))
    ∧ (epoch % s.train_highlevel_policy_freq = 0 →
      (train_highlevel_policy s raw_results epoch).2 = true
      ∧ (train_highlevel_policy s raw_results epoch).1.train_highlevel_epoch
          = s.train_highlevel_epoch + 1
      ∧ (train_highlevel_policy s raw_results epoch).1.training_highlevel_dataset
          = emptyHighlevelDataset
      ∧ (train_highlevel_policy s raw_results epoch).1.critic_exp_mvg_avg_high_level
          = trainHighlevelEmaUpdate
              { s with training_highlevel_dataset := updateHighlevelDataset raw_results }) := by
  constructor
  · intro h
    simp only [train_highlevel_policy, if_neg h]
  · intro h
    simp only [train_highlevel_policy, if_pos h, trainHighlevel]
    exact ⟨trivial, trivial, trivial, trivial⟩

/-- Witness for the amended C4 at frequency 5: epoch 1 leaves the state
unchanged with empty statistics, epoch 5 performs the single update. -/
theorem train_highlevel_policy_cadence_witness :
    train_highlevel_policy c4State [c4Raw] 1 = (c4State, false)
    ∧ (train_highlevel_policy c4State [c4Raw] 5).1.train_highlevel_epoch = 2
    ∧ (train_highlevel_policy c4State [c4Raw] 5).1.training_highlevel_dataset
        = emptyHighlevelDataset :=
  ⟨(train_highlevel_policy_cadence c4State [c4Raw] 1).1 (by decide),
    ((train_highlevel_policy_cadence c4State [c4Raw] 5).2 (by decide)).2.1,
    ((train_highlevel_policy_cadence c4State [c4Raw] 5).2 (by decide)).2.2.1⟩

/-- C8 counterexample: constructing with the unrecognized baseline type
`"bogus"` succeeds (no exception in `__init__`), and the failure is
deferred into `train`, where no advantage branch applies. -/
theorem init_baseline_validation_counterexample :
    reinforceBaselineInit "Adam" "bogus"
      = Except.ok ⟨"bogus", false, false⟩
    ∧ selectNegAdvantage "bogus" [1] 0 [] = none := by
  refine ⟨rfl, by decide⟩

/-- C8 as amended: an unrecognized optimizer name does fail at
construction (the `torch.optim` attribute lookup raises inside
`__init__`), but an unrecognized baseline type is accepted silently at
construction, and the failure surfaces only in the middle of a training
call, where none of the advantage branches of `train` applies. -/
theorem init_fail_fast_optimizer_only (name bt : String) :
    (name ∉ torchOptimAttrs →
      reinforceBaselineInit name bt
        = Except.error ("AttributeError: module torch.optim has no attribute " ++ name))
    ∧ (name ∈ torchOptimAttrs →
      reinforceBaselineInit name bt
        = Except.ok ⟨bt, decide (bt = "net"), decide (bt = "simple")⟩)
    ∧ (bt ≠ "simple" → bt ≠ "no_baseline" → bt ≠ "net" →
      ∀ (rw : List ℚ) (ema : ℚ) (bv : List ℚ),
        selectNegAdvantage bt rw ema bv = none) := by
  refine ⟨fun h => ?_, fun h => ?_, fun h1 h2 h3 rw ema bv => ?_⟩
  · simp only [reinforceBaselineInit, if_neg h]
  · simp only [reinforceBaselineInit, if_pos h]
  · simp only [selectNegAdvantage, if_neg h1, if_neg h2, if_neg h3]

/-- Witness for the amended C8: `"Foo"` is rejected at construction,
`"Adam"` with baseline `"bogus"` is accepted, and `"bogus"` reaches no
advantage branch in `train`. -/
theorem init_fail_fast_optimizer_only_witness :
    reinforceBaselineInit "Foo" "simple"
      = Except.error "AttributeError: module torch.optim has no attribute Foo"
    ∧ reinforceBaselineInit "Adam" "bogus" = Except.ok ⟨"bogus", false, false⟩
    ∧ selectNegAdvantage "bogus" [1, 2] 0 [] = none :=
  ⟨(init_fail_fast_optimizer_only "Foo" "simple").1 (by decide),
    (init_fail_fast_optimizer_only "Adam" "bogus").2.1 (by decide),
    ((init_fail_fast_optimizer_only "Adam" "bogus").2.2 (by decide) (by decide)
      (by decide)) [1, 2] 0 []⟩

/-- C9: in one `train` call the checkpoint — pointer-net weights plus,
when feature normalization is on, the normalizer mean/std/epsilon, keyed
by the epoch — is written exactly once, as the final effect of the call:
no checkpoint write occurs before or during the mini-batch loop, so every
optimizer step of the epoch precedes the single write. -/
theorem checkpoint_written_once_after_loop (baseline_type : String)
    (lr_decay normalize : Bool) (N bs epoch : ℕ) :
    (trainTrace baseline_type lr_decay N bs epoch).countP isSaveCkpt = 1
    ∧ (∀ e ∈ trainBodyEvents baseline_type lr_decay N bs, isSaveCkpt e = false)
    ∧ trainTrace baseline_type lr_decay N bs epoch
        = trainBodyEvents baseline_type lr_decay N bs ++ [TrainEvent.saveCkpt epoch]
    ∧ saveCheckpointKeys normalize
        = "pointer_net" :: (if normalize then ["mean", "std", "epsilon"] else []) := by
  have hbody : ∀ e ∈ trainBodyEvents baseline_type lr_decay N bs,
      isSaveCkpt e = false := by
    intro e he
    rcases List.mem_append.mp he with h | h
    · obtain ⟨l, hl, hel⟩ := List.mem_flatten.mp h
      obtain ⟨i, _, rfl⟩ := List.mem_map.mp hl
      simp only [trainLoopEvents] at hel
      rcases List.mem_cons.mp hel with rfl | h2
      · rfl
      · by_cases hb : baseline_type = "net"
        · rw [if_pos hb] at h2
          rcases List.mem_singleton.mp h2 with rfl
          rfl
        · rw [if_neg hb] at h2
          exact absurd h2 (List.not_mem_nil e)
    · by_cases hd : lr_decay
      · rw [if_pos hd] at h
        rcases List.mem_singleton.mp h with rfl
        rfl
      · rw [if_neg hd] at h
        exact absurd h (List.not_mem_nil e)
  refine ⟨?_, hbody, rfl, rfl⟩
  rw [trainTrace, List.countP_append]
  have h0 : (trainBodyEvents baseline_type lr_decay N bs).countP isSaveCkpt = 0 :=
    List.countP_eq_zero.mpr (fun e he => by rw [hbody e he]; exact Bool.false_ne_true)
  rw [h0]
  rfl

/-- Witness for C9 at a concrete configuration (net baseline, lr decay on,
normalization on, 100 samples, batch size 32, epoch 7). -/
theorem checkpoint_written_once_after_loop_witness :
    (trainTrace "net" true 100 32 7).countP isSaveCkpt = 1
    ∧ saveCheckpointKeys true = ["pointer_net", "mean", "std", "epsilon"] :=
  ⟨(checkpoint_written_once_after_loop "net" true true 100 32 7).1,
    (checkpoint_written_once_after_loop "net" true true 100 32 7).2.2.2⟩

/-! ## Statistics lemmas for the normalization -/

lemma sum_map_div (l : List ℝ) (f : ℝ → ℝ) (c : ℝ) :
    (l.map (fun x => f x / c)).sum = (l.map f).sum / c := by
  induction l with
  | nil => simp
  | cons x xs ih => simp [ih, add_div]

lemma sum_map_sub_const (l : List ℝ) (m : ℝ) :
    (l.map (fun x => x - m)).sum = l.sum - l.length * m := by
  induction l with
  | nil => simp
  | cons x xs ih =>
    simp only [List.map_cons, List.sum_cons, ih, List.length_cons]
    push_cast
    ring

lemma listMean_map_div (l : List ℝ) (f : ℝ → ℝ) (c : ℝ) :
    listMean (l.map (fun x => f x / c)) = listMean (l.map f) / c := by
  simp only [listMean, sum_map_div, List.length_map]
  rw [div_right_comm]

lemma listMean_centered (l : List ℝ) (hl : l ≠ []) :
    listMean (l.map (fun x => x - listMean l)) = 0 := by
  have hn : (l.length : ℝ) ≠ 0 := by
    exact_mod_cast List.length_eq_zero.not.mpr hl
  simp only [listMean, sum_map_sub_const, List.length_map]
  rw [mul_div_cancel₀ _ hn, sub_self, zero_div]

lemma listMean_normalized (l : List ℝ) (c : ℝ) (hl : l ≠ []) :
    listMean (l.map (fun x => (x - listMean l) / c)) = 0 := by
  rw [listMean_map_div, listMean_centered l hl, zero_div]

lemma listVariance_nonneg (l : List ℝ) : 0 ≤ listVariance l := by
  unfold listVariance listMean
  apply div_nonneg
  · apply List.sum_nonneg
    intro x hx
    obtain ⟨y, _, rfl⟩ := List.mem_map.mp hx
    positivity
  · positivity

lemma listStd_nonneg (l : List ℝ) : 0 ≤ listStd l := Real.sqrt_nonneg _

lemma listStd_ne_zero_ne_nil (l : List ℝ) (h : listStd l ≠ 0) : l ≠ [] := by
  intro hnil
  subst hnil
  apply h
  simp [listStd, listVariance, listMean]

lemma listVariance_normalized (l : List ℝ) (c : ℝ) (hl : l ≠ []) :
    listVariance (l.map (fun x => (x - listMean l) / c))
      = listVariance l / c ^ 2 := by
  unfold listVariance
  rw [listMean_normalized l c hl, List.map_map]
  have hfun : ((fun y => (y - 0) ^ 2) ∘ fun x => (x - listMean l) / c)
      = fun x => ((x - listMean l) ^ 2) / c ^ 2 := by
    funext x
    rw [Function.comp_apply, sub_zero, div_pow]
  rw [hfun, listMean_map_div]

lemma listStd_normalized (l : List ℝ) (c : ℝ) (hc : 0 < c) (hl : l ≠ []) :
    listStd (l.map (fun x => (x - listMean l) / c)) = listStd l / c := by
  rw [listStd, listVariance_normalized l c hl, Real.sqrt_div (listVariance_nonneg l),
    Real.sqrt_sq hc.le, listStd]

lemma listMean_pair (a b : ℝ) : listMean [a, b] = (a + b) / 2 := by
  simp [listMean]

lemma listVariance_pair (a b : ℝ) : listVariance [a, b] = ((a - b) / 2) ^ 2 := by
  unfold listVariance
  rw [listMean_pair]
  simp only [List.map_cons, List.map_nil]
  rw [listMean_pair]
  ring

lemma listStd_pair (a b : ℝ) : listStd [a, b] = |a - b| / 2 := by
  rw [listStd, listVariance_pair, Real.sqrt_sq_eq_abs, abs_div]
  norm_num

/-- C5 counterexample: rewards `[0, 1/500]` (scale 1) have nonzero
variance, yet after normalization the standard deviation is `1/2` — not
within `1e-3` of 1, because the pre-normalization std (`1/1000`) is of the
same order as the added epsilon. -/
theorem reward_normalization_tolerance_counterexample :
    listVariance (([0, 1/500] : List ℝ).map (fun r => 1 * r)) ≠ 0
    ∧ (processNegRewards 1 true [0, 1/500]).1 = [-(1/2), 1/2]
    ∧ ¬ |listStd (processNegRewards 1 true [0, 1/500]).1 - 1| ≤ 1/1000 := by
  have hmap : (([0, 1/500] : List ℝ).map (fun r => 1 * r)) = [0, 1/500] := by
    norm_num
  have hvar : listVariance ([0, 1/500] : List ℝ) = (1/1000) ^ 2 := by
    rw [listVariance_pair]
    norm_num
  have hstd : listStd ([0, 1/500] : List ℝ) = 1/1000 := by
    rw [listStd, hvar, Real.sqrt_sq (by norm_num)]
  have hout : (processNegRewards 1 true [0, 1/500]).1 = [-(1/2), 1/2] := by
    simp only [processNegRewards, if_pos, hmap]
    rw [hstd, listMean_pair]
    norm_num
  refine ⟨?_, hout, ?_⟩
  · rw [hmap, hvar]
    norm_num
  · rw [hout, listStd_pair]
    rw [show (-(1/2) - 1/2 : ℝ) = -1 by norm_num, abs_neg, abs_one]
    rw [show ((1 : ℝ) / 2 - 1 : ℝ) = -(1/2) by norm_num]
    rw [abs_neg, abs_of_nonneg (by norm_num : (0:ℝ) ≤ 1/2)]
    norm_num

/-- C5 as amended: `_process_data` scales rewards by `reward_scale`
unconditionally; iff reward normalization is enabled, the scaled
(un-normalized) distribution is logged first and the rewards are replaced
by `(r - mean) / (std + 1e-3)`; for any batch with nonzero reward
variance the result has mean exactly 0 and standard deviation
`std / (std + 1e-3)` — which lies within `1e-3` of 1 whenever the
pre-normalization std is at least `0.999`, but not for arbitrarily small
nonzero variance. -/
theorem reward_normalization_mean_std (reward_scale : ℝ) (l : List ℝ) :
    processNegRewards reward_scale false l = (l.map (fun r => reward_scale * r), [])
    ∧ processNegRewards reward_scale true l
        = ((l.map (fun r => reward_scale * r)).map
            (fun r => (r - listMean (l.map (fun r => reward_scale * r)))
              / (listStd (l.map (fun r => reward_scale * r)) + 1/1000)),
           [l.map (fun r => reward_scale * r)])
    ∧ (listStd (l.map (fun r => reward_scale * r)) ≠ 0 →
        listMean (processNegRewards reward_scale true l).1 = 0
        ∧ listStd (processNegRewards reward_scale true l).1
            = listStd (l.map (fun r => reward_scale * r))
              / (listStd (l.map (fun r => reward_scale * r)) + 1/1000)
        ∧ (999/1000 ≤ listStd (l.map (fun r => reward_scale * r)) →
            |listStd (processNegRewards reward_scale true l).1 - 1| ≤ 1/1000)) := by
  refine ⟨rfl, rfl, fun h => ?_⟩
  have hl : l.map (fun r => reward_scale * r) ≠ [] := listStd_ne_zero_ne_nil _ h
  have hσ : 0 ≤ listStd (l.map (fun r => reward_scale * r)) := listStd_nonneg _
  have hc : 0 < listStd (l.map (fun r => reward_scale * r)) + 1/1000 := by positivity
  have hfst : (processNegRewards reward_scale true l).1
      = (l.map (fun r => reward_scale * r)).map
          (fun r => (r - listMean (l.map (fun r => reward_scale * r)))
            / (listStd (l.map (fun r => reward_scale * r)) + 1/1000)) := rfl
  refine ⟨?_, ?_, ?_⟩
  · rw [hfst, listMean_normalized _ _ hl]
  · rw [hfst, listStd_normalized _ _ hc hl]
  · intro hbig
    rw [hfst, listStd_normalized _ _ hc hl]
    have h1 : listStd (l.map (fun r => reward_scale * r))
        / (listStd (l.map (fun r => reward_scale * r)) + 1/1000) - 1
        = -((1/1000) / (listStd (l.map (fun r => reward_scale * r)) + 1/1000)) := by
      field_simp
    rw [h1, abs_neg, abs_of_nonneg (div_nonneg (by norm_num) hc.le)]
    rw [div_le_iff₀ hc]
    nlinarith

/-- Witness for the amended C5 at rewards `[0, 2]`, scale 1: the
pre-normalization std is exactly 1, the normalized mean is 0 and the
normalized std is `1 / (1 + 1e-3)`, within `1e-3` of 1. -/
theorem reward_normalization_mean_std_witness :
    listMean (processNegRewards 1 true [0, 2]).1 = 0
    ∧ listStd (processNegRewards 1 true [0, 2]).1 = 1 / (1 + 1/1000)
    ∧ |listStd (processNegRewards 1 true [0, 2]).1 - 1| ≤ 1/1000 := by
  have hmap : (([0, 2] : List ℝ).map (fun r => 1 * r)) = [0, 2] := by norm_num
  have hstd : listStd (([0, 2] : List ℝ).map (fun r => 1 * r)) = 1 := by
    rw [hmap, listStd_pair]
    rw [show ((0 : ℝ) - 2) = -2 by norm_num, abs_neg, abs_two]
    norm_num
  have h := (reward_normalization_mean_std 1 [0, 2]).2.2 (by rw [hstd]; norm_num)
  refine ⟨h.1, ?_, h.2.2 (by rw [hstd]; norm_num)⟩
  rw [h.2.1, hstd]

lemma length_foldl_append {α β : Type} (l : List α) (f : α → List β)
    (init : List β) :
    (l.foldl (fun acc d => acc ++ f d) init).length
      = init.length + (l.map (fun d => (f d).length)).sum := by
  induction l generalizing init with
  | nil => simp
  | cons x xs ih =>
    simp only [List.foldl_cons, ih, List.map_cons, List.sum_cons,
      List.length_append]
    omega

lemma processNegRewards_length (reward_scale : ℝ) (b : Bool) (l : List ℝ) :
    (processNegRewards reward_scale b l).1.length = l.length := by
  unfold processNegRewards
  cases b <;> simp

/-- C7: for every batch whose per-episode low-level lists have equal
lengths, the aggregation of `_process_data` returns lists with
`len states = len actions = len sel_cuts_nums = len neg_rewards`, the
rewards stored as a column vector (every row of length one); nothing
relates `sum(len(action_i))` to `sum(sel_cuts_nums)`. -/
theorem process_data_aggregation (normalize normalize_reward : Bool)
    (ms : RunningMeanStdParams) (reward_scale : ℝ)
    (tds : List TrainingDataset)
    (h : ∀ d ∈ tds, d.state.length = d.neg_reward.length
        ∧ d.action.length = d.neg_reward.length
        ∧ d.sel_cuts_num.length = d.neg_reward.length) :
    (processData normalize ms reward_scale normalize_reward tds).states.length
      = (processData normalize ms reward_scale normalize_reward tds).actions.length
    ∧ (processData normalize ms reward_scale normalize_reward tds).actions.length
      = (processData normalize ms reward_scale normalize_reward tds).sel_cuts_nums.length
    ∧ (processData normalize ms reward_scale normalize_reward tds).sel_cuts_nums.length
      = (processData normalize ms reward_scale normalize_reward tds).neg_rewards.length
    ∧ ∀ row ∈ (processData normalize ms reward_scale normalize_reward tds).neg_rewards,
        row.length = 1 := by
  have hs : (tds.map (fun d => d.state.length)).sum
      = (tds.map (fun d => d.neg_reward.length)).sum := by
    exact congrArg List.sum (List.map_congr_left (fun d hd => (h d hd).1))
  have ha : (tds.map (fun d => d.action.length)).sum
      = (tds.map (fun d => d.neg_reward.length)).sum := by
    exact congrArg List.sum (List.map_congr_left (fun d hd => (h d hd).2.1))
  have hn : (tds.map (fun d => d.sel_cuts_num.length)).sum
      = (tds.map (fun d => d.neg_reward.length)).sum := by
    exact congrArg List.sum (List.map_congr_left (fun d hd => (h d hd).2.2))
  have hstates : (processData normalize ms reward_scale normalize_reward tds).states.length
      = (tds.map (fun d => d.state.length)).sum := by
    show (if normalize
        then (tds.foldl (fun acc d => acc ++ d.state) []).map (normalizeState ms)
        else tds.foldl (fun acc d => acc ++ d.state) []).length = _
    cases normalize <;>
      simp [length_foldl_append]
  have hactions : (processData normalize ms reward_scale normalize_reward tds).actions.length
      = (tds.map (fun d => d.action.length)).sum := by
    show (tds.foldl (fun acc d => acc ++ d.action) []).length = _
    simp [length_foldl_append]
  have hnums : (processData normalize ms reward_scale normalize_reward tds).sel_cuts_nums.length
      = (tds.map (fun d => d.sel_cuts_num.length)).sum := by
    show (tds.foldl (fun acc d => acc ++ d.sel_cuts_num) []).length = _
    simp [length_foldl_append]
  have hrewards : (processData normalize ms reward_scale normalize_reward tds).neg_rewards.length
      = (tds.map (fun d => d.neg_reward.length)).sum := by
    show ((processNegRewards reward_scale normalize_reward
        (tds.foldl (fun acc d => acc ++ d.neg_reward) [])).1.map (fun r => [r])).length = _
    simp [processNegRewards_length, length_foldl_append]
  refine ⟨?_, ?_, ?_, ?_⟩
  · rw [hstates, hactions, hs, ha]
  · rw [hactions, hnums, ha, hn]
  · rw [hnums, hrewards, hn]
  · intro row hrow
    have : row ∈ (processNegRewards reward_scale normalize_reward
        (tds.foldl (fun acc d => acc ++ d.neg_reward) [])).1.map (fun r => [r]) := hrow
    obtain ⟨r, _, rfl⟩ := List.mem_map.mp this
    rfl

/-- Witness for C7 at a concrete batch (normalization on, scale 2). -/
theorem process_data_aggregation_witness :
    (processData true ⟨[0], [1], 1/100⟩ 2 true [c7Data]).states.length
      = (processData true ⟨[0], [1], 1/100⟩ 2 true [c7Data]).actions.length
    ∧ (processData true ⟨[0], [1], 1/100⟩ 2 true [c7Data]).sel_cuts_nums.length
      = (processData true ⟨[0], [1], 1/100⟩ 2 true [c7Data]).neg_rewards.length :=
  ⟨(process_data_aggregation true true ⟨[0], [1], 1/100⟩ 2 [c7Data]
      (fun d hd => by
        rcases List.mem_singleton.mp hd with rfl
        exact ⟨rfl, rfl, rfl⟩)).1,
    (process_data_aggregation true true ⟨[0], [1], 1/100⟩ 2 [c7Data]
      (fun d hd => by
        rcases List.mem_singleton.mp hd with rfl
        exact ⟨rfl, rfl, rfl⟩)).2.2.1⟩

/-- C10: in `_train_highlevel` the rewards entering the loss and the
high-level EMA are exactly `reward_scale` times the raw buffered
`neg_rewards`; the computation never consults `normalize_reward`, even
when it is enabled — unlike the low-level `_process_data` path, which with
normalization enabled returns rewards different from the merely scaled
ones. -/
theorem highlevel_rewards_never_normalized (s : HRLState) (b : Bool) :
    trainHighlevelNegRewards { s with normalize_reward := b }
      = trainHighlevelNegRewards s
    ∧ trainHighlevelNegRewards s
        = s.training_highlevel_dataset.neg_reward.map (fun r => r * s.reward_scale)
    ∧ trainHighlevelEmaUpdate s
        = (if s.train_highlevel_epoch = 1
           then listMeanQ (trainHighlevelNegRewards s)
           else s.critic_exp_mvg_avg_high_level * s.critic_beta
             + (1 - s.critic_beta) * listMeanQ (trainHighlevelNegRewards s))
    ∧ (processNegRewards 1 true [0, 2]).1 ≠ ([0, 2] : List ℝ).map (fun r => 1 * r) := by
  refine ⟨rfl, rfl, rfl, ?_⟩
  have hmap : (([0, 2] : List ℝ).map (fun r => 1 * r)) = [0, 2] := by norm_num
  have hstd : listStd (([0, 2] : List ℝ).map (fun r => 1 * r)) = 1 := by
    rw [hmap, listStd_pair]
    rw [show ((0 : ℝ) - 2) = -2 by norm_num, abs_neg, abs_two]
    norm_num
  have hout : (processNegRewards 1 true [0, 2]).1
      = [(0 - 1) / (1 + 1/1000), (2 - 1) / (1 + 1/1000)] := by
    show (([0, 2] : List ℝ).map (fun r => 1 * r)).map
        (fun r => (r - listMean (([0, 2] : List ℝ).map (fun r => 1 * r)))
          / (listStd (([0, 2] : List ℝ).map (fun r => 1 * r)) + 1/1000)) = _
    rw [hstd, hmap, listMean_pair]
    norm_num
  rw [hout, hmap]
  intro heq
  simp only [List.cons.injEq] at heq
  obtain ⟨h1, -⟩ := heq
  norm_num at h1

end L2OHEM
